import Mathlib

/-!
Shallow embedding of the note-store core of the DyslexiaDrawNote repository.

The repository contains several variants of the same store:

* `MemStorage` (server/storage.ts, first document, lines 20-120): a
  `Map`-backed in-memory store whose constructor seeds two example notes and
  whose `createNote` spreads the insert object without applying defaults.
* `DatabaseStorage` (server/storage.ts, second document, lines 141-218): its
  `createNote` builds a `noteToInsert` record applying the JavaScript
  `|| null` / `|| false` defaults before the insert.
* `MemStorage2` (server/storage.ts, second document, lines 221-326): an
  in-memory store that applies the same defaults as `DatabaseStorage`.
* `MemList` (unnamed/part_000): an unseeded array-backed store whose
  `createNote` reads the clock twice (`createdAt: new Date(), updatedAt:
  new Date()`).

Timestamps are modelled as natural numbers; every operation that calls
`new Date()` takes the reading as an explicit argument, so behaviour under
any clock trace is expressible.  Optional / nullable JavaScript fields are
modelled with nested options: `none` is an absent key (`undefined`),
`some none` is an explicit `null`, `some (some s)` is a string value.
-/

/-- JSON-like values appearing in request bodies. -/
inductive JVal where
  | jnull : JVal
  | jbool : Bool → JVal
  | jnum : Int → JVal
  | jstr : String → JVal
deriving DecidableEq

/-- JavaScript truthiness of a defined value: `null`, `false`, `0` and the
empty string are falsy, everything else modelled here is truthy. -/
def JVal.truthy : JVal → Bool
  | .jnull => false
  | .jbool b => b
  | .jnum n => n != 0
  | .jstr s => s != ""

/-- The JavaScript `Boolean(x)` coercion, where `none` models `undefined`
(an absent field). -/
def jsBoolean : Option JVal → Bool
  | none => false
  | some v => v.truthy

/-- A stored note.  `preview`, `recognizedText` and `isFavorite` keep the
nested-option encoding because `MemStorage.createNote` spreads the insert
object verbatim, so a note produced by it can lack those keys entirely. -/
structure Note where
  id : Nat
  title : String
  content : String
  preview : Option (Option String)
  recognizedText : Option (Option String)
  isFavorite : Option Bool
  createdAt : Nat
  updatedAt : Nat
deriving DecidableEq

/-- The insert payload (`InsertNote` in shared/schema): `title` and
`content` are required strings, the remaining fields are optional and
nullable, as witnessed by the `|| null` / `|| false` defaulting in
`DatabaseStorage.createNote`. -/
structure InsertNote where
  title : String
  content : String
  preview : Option (Option String) := none
  recognizedText : Option (Option String) := none
  isFavorite : Option Bool := none
deriving DecidableEq

/-- A `Partial<InsertNote>` update payload: every field may be absent. -/
structure PartialNote where
  title : Option String := none
  content : Option String := none
  preview : Option (Option String) := none
  recognizedText : Option (Option String) := none
  isFavorite : Option Bool := none
deriving DecidableEq

/-- Lookup in an association list, modelling `Map.get`. -/
def mapGet (m : List (Nat × Note)) (k : Nat) : Option Note :=
  match m with
  | [] => none
  | p :: rest => if p.1 = k then some p.2 else mapGet rest k

/-- Insert-or-replace in an association list, modelling `Map.set`. -/
def mapSet (m : List (Nat × Note)) (k : Nat) (v : Note) : List (Nat × Note) :=
  match m with
  | [] => [(k, v)]
  | p :: rest => if p.1 = k then (k, v) :: rest else p :: mapSet rest k v

/-- Removal from an association list, modelling `Map.delete`. -/
def mapDelete (m : List (Nat × Note)) (k : Nat) : List (Nat × Note) :=
  match m with
  | [] => []
  | p :: rest => if p.1 = k then rest else p :: mapDelete rest k

/-- `Map.has`, which is exactly definedness of `Map.get`. -/
def mapHas (m : List (Nat × Note)) (k : Nat) : Bool :=
  (mapGet m k).isSome

/-- State of the `Map`-backed stores: the notes map and the id counter. -/
structure MemState where
  notes : List (Nat × Note)
  noteCurrentId : Nat
deriving DecidableEq

/-- `MemStorage.createNote` (storage.ts lines 79-92): takes the counter as
the id, increments it, stamps both timestamps from the single reading `t`,
and spreads the insert object into the note without applying defaults. -/
def MemStorage.createNote (s : MemState) (t : Nat) (ins : InsertNote) :
    Note × MemState :=
  let id := s.noteCurrentId
  let note : Note :=
    { id := id
      title := ins.title
      content := ins.content
      preview := ins.preview
      recognizedText := ins.recognizedText
      isFavorite := ins.isFavorite
      createdAt := t
      updatedAt := t }
  (note, { notes := mapSet s.notes id note, noteCurrentId := id + 1 })

/-- `MemStorage.getNote` (storage.ts lines 75-77). -/
def MemStorage.getNote (s : MemState) (id : Nat) : Option Note :=
  mapGet s.notes id

/-- The object-spread merge `\x7b...existingNote, ...updatedFields,
updatedAt: new Date()\x7d` of `MemStorage.updateNote`: a supplied field
overrides, an absent field is preserved, `id` and `createdAt` are not part
of `Partial<InsertNote>` and are kept, `updatedAt` is always refreshed. -/
def mergeNote (e : Note) (p : PartialNote) (t : Nat) : Note :=
  { id := e.id
    title := p.title.getD e.title
    content := p.content.getD e.content
    preview := p.preview.or e.preview
    recognizedText := p.recognizedText.or e.recognizedText
    isFavorite := p.isFavorite.or e.isFavorite
    createdAt := e.createdAt
    updatedAt := t }

/-- `MemStorage.updateNote` (storage.ts lines 94-109): absent id yields
`undefined` and leaves the map untouched, otherwise the merged note is
stored and returned. -/
def MemStorage.updateNote (s : MemState) (t : Nat) (id : Nat)
    (p : PartialNote) : Option Note × MemState :=
  match mapGet s.notes id with
  | none => (none, s)
  | some e =>
      let n := mergeNote e p t
      (some n, { s with notes := mapSet s.notes id n })

/-- `MemStorage.deleteNote` (storage.ts lines 111-117): `false` when the id
is absent, otherwise the entry is removed and `true` returned. -/
def MemStorage.deleteNote (s : MemState) (id : Nat) : Bool × MemState :=
  if mapHas s.notes id then (true, { s with notes := mapDelete s.notes id })
  else (false, s)

/-- The `MemStorage` constructor (storage.ts lines 26-48): counters start
at 1 and two example notes are seeded through `createNote`, at clock
readings `t1` and `t2`. -/
def MemStorage.init (t1 t2 : Nat) : MemState :=
  let s0 : MemState := { notes := [], noteCurrentId := 1 }
  let s1 := (MemStorage.createNote s0 t1
    { title := "Welcome to DyslexiNote"
      content := ""
      preview := some (some "")
      recognizedText :=
        some (some "Welcome to DyslexiNote, a dyslexia-friendly note-taking app.")
      isFavorite := some true }).2
  (MemStorage.createNote s1 t2
    { title := "How to Use"
      content := ""
      preview := some (some "")
      recognizedText :=
        some (some "Draw on the canvas and use the text recognition to convert your handwriting to text.")
      isFavorite := some false }).2

/-- The JavaScript expression `x || null` applied to an optional nullable
string field: `undefined`, `null` and the empty string are falsy and give
`null`; any other string passes through.  The result is always a defined
(possibly null) value. -/
def jsOrNullStr : Option (Option String) → Option (Option String)
  | some (some s) => if s = "" then some none else some (some s)
  | _ => some none

/-- The JavaScript expression `x || false` applied to an optional boolean. -/
def jsOrFalse (x : Option Bool) : Bool :=
  x.getD false

/-- The `noteToInsert` record built by `DatabaseStorage.createNote`
(storage.ts lines 173-179): the pure defaulting step that precedes the
database insert. -/
def DatabaseStorage.noteToInsert (ins : InsertNote) : InsertNote :=
  { title := ins.title
    content := ins.content
    preview := jsOrNullStr ins.preview
    recognizedText := jsOrNullStr ins.recognizedText
    isFavorite := some (jsOrFalse ins.isFavorite) }

/-- `createNote` of the second in-memory variant (storage.ts lines
282-300), which applies the same `|| null` / `|| false` defaults inline
before storing. -/
def MemStorage2.createNote (s : MemState) (t : Nat) (ins : InsertNote) :
    Note × MemState :=
  let id := s.noteCurrentId
  let note : Note :=
    { id := id
      title := ins.title
      content := ins.content
      preview := jsOrNullStr ins.preview
      recognizedText := jsOrNullStr ins.recognizedText
      isFavorite := some (jsOrFalse ins.isFavorite)
      createdAt := t
      updatedAt := t }
  (note, { notes := mapSet s.notes id note, noteCurrentId := id + 1 })

/-- State of the array-backed store of unnamed/part_000: a plain list of
notes and the `nextId` counter, both starting empty (no seeding). -/
structure ListState where
  notes : List Note
  nextId : Nat
deriving DecidableEq

/-- The fresh module state of unnamed/part_000: empty array, `nextId = 1`. -/
def MemList.fresh : ListState :=
  { notes := [], nextId := 1 }

/-- `createNote` of unnamed/part_000 (lines 16-25).  The object literal
evaluates `new Date()` twice, first for `createdAt` and then for
`updatedAt`, so the two stamps are distinct clock readings `t1` and `t2`. -/
def MemList.createNote (s : ListState) (t1 t2 : Nat) (ins : InsertNote) :
    Note × ListState :=
  let note : Note :=
    { id := s.nextId
      title := ins.title
      content := ins.content
      preview := ins.preview
      recognizedText := ins.recognizedText
      isFavorite := ins.isFavorite
      createdAt := t1
      updatedAt := t2 }
  (note, { notes := s.notes ++ [note], nextId := s.nextId + 1 })

/-- The JavaScript `parseInt` on a route parameter: leading whitespace,
an optional sign, then a maximal run of decimal digits; `none` models the
`NaN` result when no digit is found. -/
def jsParseInt (s : String) : Option Int :=
  let cs := s.toList.dropWhile (fun c => c = ' ' || c = '\t' || c = '\n' || c = '\r')
  let signAndRest : Int × List Char :=
    match cs with
    | '-' :: r => (-1, r)
    | '+' :: r => (1, r)
    | _ => (1, cs)
  let ds := signAndRest.2.takeWhile Char.isDigit
  if ds.isEmpty then none
  else some (signAndRest.1 *
    (ds.foldl (fun a c => a * 10 + (c.toNat - '0'.toNat)) 0 : Nat))

/-- Whether a parsed id (possibly `NaN`, modelled as `none`) equals a
stored note's integer id; `NaN` matches nothing. -/
def idMatches (i : Option Int) (nid : Nat) : Bool :=
  match i with
  | none => false
  | some v => v == (nid : Int)

/-- `storage.getNote` as called from the routes with a possibly-`NaN` id:
the first stored entry whose key equals the parsed value. -/
def getNoteJs (s : MemState) (i : Option Int) : Option Note :=
  (s.notes.find? (fun p => idMatches i p.1)).map (·.2)

/-- An HTTP response as shaped by the handlers: a status code and either a
JSON note body or a JSON `message` body. -/
structure HttpResponse where
  status : Nat
  bodyNote : Option Note := none
  bodyMessage : Option String := none
deriving DecidableEq

/-- The GET /api/notes/:id handler (unnamed/part_001 lines 20-33):
`parseInt` the parameter, look the note up, 404 with a fixed message on a
miss, 200 with the note otherwise. -/
def handleGetNote (s : MemState) (idParam : String) : HttpResponse :=
  match getNoteJs s (jsParseInt idParam) with
  | none => { status := 404, bodyMessage := some "Note not found" }
  | some n => { status := 200, bodyNote := some n }

/-- The PATCH /api/notes/:id/favorite handler (unnamed/part_001 lines
72-91): fetch the note, 404 on a miss; otherwise update with the note's
own fields spread back plus `isFavorite: Boolean(body.isFavorite)` and
respond 200 with the updated note.  The spread of the freshly fetched note
re-supplies its current field values, so only `isFavorite` changes.  The
update is addressed at the parsed id, which on a successful lookup equals
the matched entry's key. -/
def handlePatchFavorite (s : MemState) (t : Nat) (idParam : String)
    (bodyIsFavorite : Option JVal) : HttpResponse × MemState :=
  match s.notes.find? (fun q => idMatches (jsParseInt idParam) q.1) with
  | none => ({ status := 404, bodyMessage := some "Note not found" }, s)
  | some entry =>
      let note := entry.2
      let p : PartialNote :=
        { title := some note.title
          content := some note.content
          preview := note.preview
          recognizedText := note.recognizedText
          isFavorite := some (jsBoolean bodyIsFavorite) }
      let r := MemStorage.updateNote s t entry.1 p
      ({ status := 200, bodyNote := r.1 }, r.2)

/-- The title shown by `NoteCard` (NoteCard.tsx line 125):
`note.title || 'Untitled Note'`, substituting the placeholder exactly when
the stored title is the (falsy) empty string. -/
def NoteCard.displayTitle (title : String) : String :=
  if title = "" then "Untitled Note" else title

/-- One repository operation together with the clock readings it takes. -/
inductive MOp where
  | mcreate : Nat → InsertNote → MOp
  | mupdate : Nat → Nat → PartialNote → MOp
  | mdelete : Nat → MOp
deriving DecidableEq

/-- Applying one operation to a `MemStorage` state. -/
def applyOp (s : MemState) : MOp → MemState
  | .mcreate t ins => (MemStorage.createNote s t ins).2
  | .mupdate t id p => (MemStorage.updateNote s t id p).2
  | .mdelete id => (MemStorage.deleteNote s id).2

/-- Applying a sequence of operations in order. -/
def applyOps (s : MemState) (ops : List MOp) : MemState :=
  ops.foldl applyOp s

/-- The clock readings along a trace never go below the bound and never
decrease: each timed operation's reading is at least the running bound and
becomes the new bound. -/
def TimesLB : Nat → List MOp → Prop
  | _, [] => True
  | b, .mcreate t _ :: rest => b ≤ t ∧ TimesLB t rest
  | b, .mupdate t _ _ :: rest => b ≤ t ∧ TimesLB t rest
  | b, .mdelete _ :: rest => TimesLB b rest

/-- The ids handed out by the create operations of a trace, in order. -/
def createdIds (s : MemState) : List MOp → List Nat
  | [] => []
  | op :: rest =>
      match op with
      | .mcreate _ _ => s.noteCurrentId :: createdIds (applyOp s op) rest
      | _ => createdIds (applyOp s op) rest

/-- The running time bound after a trace whose readings satisfy `TimesLB`. -/
def traceBound (b : Nat) : List MOp → Nat
  | [] => b
  | .mcreate t _ :: rest => traceBound t rest
  | .mupdate t _ _ :: rest => traceBound t rest
  | .mdelete _ :: rest => traceBound b rest

/-- Well-formedness of a `MemStorage` state: keys are pairwise distinct and
every stored key is below the id counter.  This holds for the constructed
state and is preserved by every operation. -/
def StateWF (s : MemState) : Prop :=
  (s.notes.map Prod.fst).Nodup ∧ ∀ q ∈ s.notes, q.1 < s.noteCurrentId

/-- Every stored note has `createdAt ≤ updatedAt` and `updatedAt` below the
current clock bound. -/
def Bounded (b : Nat) (s : MemState) : Prop :=
  ∀ q ∈ s.notes, q.2.createdAt ≤ q.2.updatedAt ∧ q.2.updatedAt ≤ b

/-- The first note seeded by the `MemStorage` constructor, stamped at `t`. -/
def seedNote1 (t : Nat) : Note :=
  { id := 1
    title := "Welcome to DyslexiNote"
    content := ""
    preview := some (some "")
    recognizedText :=
      some (some "Welcome to DyslexiNote, a dyslexia-friendly note-taking app.")
    isFavorite := some true
    createdAt := t
    updatedAt := t }

/-- The second note seeded by the `MemStorage` constructor, stamped at `t`. -/
def seedNote2 (t : Nat) : Note :=
  { id := 2
    title := "How to Use"
    content := ""
    preview := some (some "")
    recognizedText :=
      some (some "Draw on the canvas and use the text recognition to convert your handwriting to text.")
    isFavorite := some false
    createdAt := t
    updatedAt := t }

theorem mapGet_mapSet (m : List (Nat × Note)) (k j : Nat) (v : Note) :
    mapGet (mapSet m k v) j = if j = k then some v else mapGet m j := by
  induction m with
  | nil =>
      rcases eq_or_ne j k with hj | hj
      · subst hj
        simp [mapSet, mapGet]
      · simp [mapSet, mapGet, if_neg (Ne.symm hj), if_neg hj]
  | cons p rest ih =>
      rcases eq_or_ne p.1 k with hp | hp
      · subst hp
        rcases eq_or_ne j p.1 with hj | hj
        · subst hj
          simp [mapSet, mapGet]
        · simp [mapSet, mapGet, if_neg hj, if_neg (Ne.symm hj)]
      · rcases eq_or_ne p.1 j with hj | hj
        · subst hj
          simp [mapSet, mapGet, if_neg hp]
        · simp [mapSet, mapGet, if_neg hp, if_neg hj, ih]

theorem mapGet_mem {m : List (Nat × Note)} {k : Nat} {v : Note}
    (h : mapGet m k = some v) : (k, v) ∈ m := by
  induction m with
  | nil => simp [mapGet] at h
  | cons p rest ih =>
      simp only [mapGet] at h
      by_cases hk : p.1 = k
      · rw [if_pos hk] at h
        cases p with
        | mk a b =>
          simp only at hk
          injection h with hbv
          rw [← hk, ← hbv]
          exact List.mem_cons_self _ _
      · rw [if_neg hk] at h
        exact List.mem_cons_of_mem _ (ih h)

theorem mem_mapSet {m : List (Nat × Note)} {k : Nat} {v : Note} {q : Nat × Note}
    (h : q ∈ mapSet m k v) : q = (k, v) ∨ q ∈ m := by
  induction m with
  | nil => simp [mapSet] at h; simp [h]
  | cons p rest ih =>
      simp only [mapSet] at h
      by_cases hk : p.1 = k
      · simp only [if_pos hk] at h
        rcases List.mem_cons.mp h with h1 | h1
        · exact Or.inl h1
        · exact Or.inr (List.mem_cons_of_mem _ h1)
      · simp only [if_neg hk] at h
        rcases List.mem_cons.mp h with h1 | h1
        · exact Or.inr (h1 ▸ List.mem_cons_self _ _)
        · rcases ih h1 with h2 | h2
          · exact Or.inl h2
          · exact Or.inr (List.mem_cons_of_mem _ h2)

theorem mapDelete_sublist (m : List (Nat × Note)) (k : Nat) :
    List.Sublist (mapDelete m k) m := by
  induction m with
  | nil => simp [mapDelete]
  | cons p rest ih =>
      simp only [mapDelete]
      by_cases hk : p.1 = k
      · simp only [if_pos hk]
        exact List.Sublist.cons p (List.Sublist.refl rest)
      · simp only [if_neg hk]
        exact List.Sublist.cons₂ p ih

theorem keys_mapSet_mem {m : List (Nat × Note)} {k j : Nat} {v : Note}
    (h : j ∈ (mapSet m k v).map Prod.fst) :
    j = k ∨ j ∈ m.map Prod.fst := by
  rcases List.mem_map.mp h with ⟨q, hq, hj⟩
  rcases mem_mapSet hq with h1 | h1
  · left; rw [h1] at hj; exact hj.symm
  · right; exact List.mem_map.mpr ⟨q, h1, hj⟩

theorem nodup_mapSet {m : List (Nat × Note)} {k : Nat} {v : Note}
    (h : (m.map Prod.fst).Nodup) : ((mapSet m k v).map Prod.fst).Nodup := by
  induction m with
  | nil => simp [mapSet]
  | cons p rest ih =>
      simp only [List.map_cons, List.nodup_cons] at h
      simp only [mapSet]
      by_cases hk : p.1 = k
      · simp only [if_pos hk, List.map_cons, List.nodup_cons]
        exact ⟨hk ▸ h.1, h.2⟩
      · simp only [if_neg hk, List.map_cons, List.nodup_cons]
        refine ⟨fun hmem => ?_, ih h.2⟩
        rcases keys_mapSet_mem hmem with h1 | h1
        · exact hk h1
        · exact h.1 h1

theorem mapGet_eq_none_of_not_mem_keys {m : List (Nat × Note)} {k : Nat}
    (h : k ∉ m.map Prod.fst) : mapGet m k = none := by
  induction m with
  | nil => simp [mapGet]
  | cons p rest ih =>
      simp only [List.map_cons, List.mem_cons, not_or] at h
      have hne : p.1 ≠ k := fun he => h.1 he.symm
      simp only [mapGet, if_neg hne]
      exact ih h.2

theorem mapGet_mapDelete_ne {m : List (Nat × Note)} {k j : Nat} (h : k ≠ j) :
    mapGet (mapDelete m k) j = mapGet m j := by
  induction m with
  | nil => simp [mapDelete]
  | cons p rest ih =>
      simp only [mapDelete, mapGet]
      by_cases hk : p.1 = k
      · simp only [if_pos hk, mapGet, if_neg (hk ▸ h : p.1 ≠ j)]
      · simp only [if_neg hk, mapGet, ih]

theorem mapGet_mapDelete_self {m : List (Nat × Note)} {k : Nat}
    (h : (m.map Prod.fst).Nodup) : mapGet (mapDelete m k) k = none := by
  induction m with
  | nil => simp [mapDelete, mapGet]
  | cons p rest ih =>
      simp only [List.map_cons, List.nodup_cons] at h
      simp only [mapDelete]
      by_cases hk : p.1 = k
      · simp only [if_pos hk]
        exact mapGet_eq_none_of_not_mem_keys (hk ▸ h.1)
      · simp only [if_neg hk, mapGet, if_neg hk]
        exact ih h.2

theorem stateWF_init (t1 t2 : Nat) : StateWF (MemStorage.init t1 t2) := by
  constructor
  · simp [MemStorage.init, MemStorage.createNote, mapSet]
  · intro q hq
    simp only [MemStorage.init, MemStorage.createNote, mapSet] at hq ⊢
    rcases List.mem_cons.mp hq with h1 | h1
    · rw [h1]; omega
    · rcases List.mem_cons.mp h1 with h2 | h2
      · rw [h2]; omega
      · simp at h2

theorem stateWF_applyOp {s : MemState} (h : StateWF s) (op : MOp) :
    StateWF (applyOp s op) := by
  rcases h with ⟨hnd, hlt⟩
  cases op with
  | mcreate t ins =>
      constructor
      · exact nodup_mapSet hnd
      · intro q hq
        rcases mem_mapSet hq with h1 | h1
        · rw [h1]
          simp [applyOp, MemStorage.createNote]
        · have := hlt q h1
          simp only [applyOp, MemStorage.createNote]
          omega
  | mupdate t id p =>
      simp only [applyOp, MemStorage.updateNote]
      cases hg : mapGet s.notes id with
      | none => exact ⟨hnd, hlt⟩
      | some e =>
          constructor
          · exact nodup_mapSet hnd
          · intro q hq
            rcases mem_mapSet hq with h1 | h1
            · rw [h1]
              exact hlt (id, e) (mapGet_mem hg)
            · exact hlt q h1
  | mdelete id =>
      simp only [applyOp, MemStorage.deleteNote]
      by_cases hh : mapHas s.notes id
      · simp only [if_pos hh]
        constructor
        · exact hnd.sublist (List.Sublist.map Prod.fst (mapDelete_sublist s.notes id))
        · intro q hq
          exact hlt q ((mapDelete_sublist s.notes id).subset hq)
      · simp only [if_neg hh]
        exact ⟨hnd, hlt⟩

theorem stateWF_applyOps {s : MemState} (h : StateWF s) (ops : List MOp) :
    StateWF (applyOps s ops) := by
  induction ops generalizing s with
  | nil => exact h
  | cons op rest ih => exact ih (stateWF_applyOp h op)

theorem bounded_mono {b b' : Nat} {s : MemState} (hbb : b ≤ b')
    (h : Bounded b s) : Bounded b' s := by
  intro q hq
  have := h q hq
  omega

theorem bounded_init {t1 t2 : Nat} (h : t1 ≤ t2) :
    Bounded t2 (MemStorage.init t1 t2) := by
  intro q hq
  simp only [MemStorage.init, MemStorage.createNote, mapSet] at hq
  rcases List.mem_cons.mp hq with h1 | h1
  · rw [h1]; exact ⟨Nat.le_refl t1, h⟩
  · rcases List.mem_cons.mp h1 with h2 | h2
    · rw [h2]; exact ⟨Nat.le_refl t2, Nat.le_refl t2⟩
    · simp at h2

theorem bounded_applyOp_create {b t : Nat} {s : MemState} {ins : InsertNote}
    (hb : Bounded b s) (hbt : b ≤ t) :
    Bounded t (applyOp s (.mcreate t ins)) := by
  intro q hq
  simp only [applyOp, MemStorage.createNote] at hq
  rcases mem_mapSet hq with h1 | h1
  · rw [h1]; exact ⟨Nat.le_refl t, Nat.le_refl t⟩
  · have := hb q h1
    omega

theorem bounded_applyOp_update {b t : Nat} {s : MemState} {id : Nat}
    {p : PartialNote} (hb : Bounded b s) (hbt : b ≤ t) :
    Bounded t (applyOp s (.mupdate t id p)) := by
  simp only [applyOp, MemStorage.updateNote]
  cases hg : mapGet s.notes id with
  | none => exact bounded_mono hbt hb
  | some e =>
      intro q hq
      simp only at hq
      rcases mem_mapSet hq with h1 | h1
      · rw [h1]
        have he : e.createdAt ≤ e.updatedAt ∧ e.updatedAt ≤ b :=
          hb (id, e) (mapGet_mem hg)
        simp only [mergeNote]
        constructor
        · omega
        · exact Nat.le_refl t
      · have hq2 : q.2.createdAt ≤ q.2.updatedAt ∧ q.2.updatedAt ≤ b :=
          hb q h1
        omega

theorem bounded_applyOp_delete {b : Nat} {s : MemState} {id : Nat}
    (hb : Bounded b s) : Bounded b (applyOp s (.mdelete id)) := by
  simp only [applyOp, MemStorage.deleteNote]
  by_cases hh : mapHas s.notes id
  · simp only [if_pos hh]
    intro q hq
    exact hb q ((mapDelete_sublist s.notes id).subset hq)
  · simp only [if_neg hh]
    exact hb

theorem bounded_applyOps {b : Nat} {s : MemState} {ops : List MOp}
    (hb : Bounded b s) (hm : TimesLB b ops) :
    Bounded (traceBound b ops) (applyOps s ops) := by
  induction ops generalizing b s with
  | nil => exact hb
  | cons op rest ih =>
      cases op with
      | mcreate t ins =>
          exact ih (bounded_applyOp_create hb hm.1) hm.2
      | mupdate t id p =>
          exact ih (bounded_applyOp_update hb hm.1) hm.2
      | mdelete id =>
          exact ih (bounded_applyOp_delete hb) hm

theorem createdAt_stable {s : MemState} (hWF : StateWF s) (op : MOp)
    {id : Nat} {n n' : Note}
    (h1 : mapGet s.notes id = some n)
    (h2 : mapGet (applyOp s op).notes id = some n') :
    n'.createdAt = n.createdAt := by
  cases op with
  | mcreate t ins =>
      simp only [applyOp, MemStorage.createNote] at h2
      rw [mapGet_mapSet] at h2
      have hlt := hWF.2 (id, n) (mapGet_mem h1)
      rw [if_neg (by omega : ¬ id = s.noteCurrentId)] at h2
      rw [h1] at h2
      injection h2 with h3
      rw [← h3]
  | mupdate t uid p =>
      simp only [applyOp, MemStorage.updateNote] at h2
      cases hg : mapGet s.notes uid with
      | none =>
          rw [hg] at h2
          simp only at h2
          rw [h1] at h2
          injection h2 with h3
          rw [← h3]
      | some e =>
          rw [hg] at h2
          simp only at h2
          rw [mapGet_mapSet] at h2
          by_cases huid : id = uid
          · rw [if_pos huid] at h2
            injection h2 with h3
            rw [← h3]
            subst huid
            rw [h1] at hg
            injection hg with h4
            rw [h4]
            simp [mergeNote]
          · rw [if_neg huid] at h2
            rw [h1] at h2
            injection h2 with h3
            rw [← h3]
  | mdelete did =>
      simp only [applyOp, MemStorage.deleteNote] at h2
      by_cases hh : mapHas s.notes did
      · rw [if_pos hh] at h2
        simp only at h2
        by_cases hdid : did = id
        · subst hdid
          rw [mapGet_mapDelete_self hWF.1] at h2
          exact absurd h2 (by simp)
        · rw [mapGet_mapDelete_ne hdid] at h2
          rw [h1] at h2
          injection h2 with h3
          rw [← h3]
      · rw [if_neg hh] at h2
        simp only at h2
        rw [h1] at h2
        injection h2 with h3
        rw [← h3]

theorem counter_le_applyOp (s : MemState) (op : MOp) :
    s.noteCurrentId ≤ (applyOp s op).noteCurrentId := by
  cases op with
  | mcreate t ins => simp [applyOp, MemStorage.createNote]
  | mupdate t id p =>
      simp only [applyOp, MemStorage.updateNote]
      cases mapGet s.notes id <;> simp
  | mdelete id =>
      simp only [applyOp, MemStorage.deleteNote]
      by_cases hh : mapHas s.notes id <;> simp [hh]

theorem createdIds_lb (s : MemState) (ops : List MOp) :
    ∀ x ∈ createdIds s ops, s.noteCurrentId ≤ x := by
  induction ops generalizing s with
  | nil => intro x hx; simp [createdIds] at hx
  | cons op rest ih =>
      intro x hx
      cases op with
      | mcreate t ins =>
          simp only [createdIds] at hx
          rcases List.mem_cons.mp hx with h1 | h1
          · rw [h1]
          · have hc := counter_le_applyOp s (.mcreate t ins)
            have := ih (applyOp s (.mcreate t ins)) x h1
            omega
      | mupdate t id p =>
          simp only [createdIds] at hx
          have hc := counter_le_applyOp s (.mupdate t id p)
          have := ih (applyOp s (.mupdate t id p)) x hx
          omega
      | mdelete id =>
          simp only [createdIds] at hx
          have hc := counter_le_applyOp s (.mdelete id)
          have := ih (applyOp s (.mdelete id)) x hx
          omega

theorem find?_idMatches_mapGet {m : List (Nat × Note)} {i : Option Int}
    {entry : Nat × Note}
    (h : m.find? (fun q => idMatches i q.1) = some entry) :
    mapGet m entry.1 = some entry.2 := by
  induction m with
  | nil => simp at h
  | cons p rest ih =>
      by_cases hm : idMatches i p.1 = true
      · rw [List.find?_cons_of_pos (p := fun q : Nat × Note => idMatches i q.1)
          _ hm] at h
        injection h with h1
        rw [← h1]
        simp [mapGet]
      · rw [List.find?_cons_of_neg (p := fun q : Nat × Note => idMatches i q.1)
          _ hm] at h
        have hme := List.find?_some h
        simp only at hme
        have hne : p.1 ≠ entry.1 := by
          intro he
          rw [he] at hm
          exact hm hme
        simp only [mapGet, if_neg hne]
        exact ih h

/-- C1: the spec's end-to-end scenario expects the first POST to a fresh
volatile store to return a note with id 1, while the same spec says the
volatile variant seeds two example notes.  On the seeded `MemStorage`
constructor state the first user-created note receives id 3, not 1: the
claim as stated is false for that variant. -/
theorem claim1_counterexample :
    ((MemStorage.createNote (MemStorage.init 0 0) 0
      { title := "Test", content := "data:image/png;base64,AAA=" }).1).id = 3 ∧
    ((MemStorage.createNote (MemStorage.init 0 0) 0
      { title := "Test", content := "data:image/png;base64,AAA=" }).1).id ≠ 1 :=
  ⟨rfl, by decide⟩

/-- C1 (amended): on the unseeded array store of unnamed/part_000 the
first created note has id 1; on the seeded `MemStorage` the two seeded
notes consume ids 1 and 2 and the first user-created note has id 3. -/
theorem claim1_amended_first_ids (t1 t2 t u1 u2 : Nat) (ins ins2 : InsertNote) :
    ((MemStorage.createNote (MemStorage.init t1 t2) t ins).1).id = 3 ∧
    ((MemList.createNote MemList.fresh u1 u2 ins2).1).id = 1 :=
  ⟨rfl, rfl⟩

/-- C2: the claim states that `create` stores the documented defaults for
omitted optional fields.  `MemStorage.createNote` spreads the insert
object without defaulting, so a create with `preview`, `recognizedText`
and `isFavorite` omitted stores them as absent (`none` here), not as the
documented `null` (`some none`) and `false` (`some false`). -/
theorem claim2_counterexample :
    ((MemStorage.createNote (MemStorage.init 0 0) 0
      { title := "Test", content := "c" }).1).preview = none ∧
    ((MemStorage.createNote (MemStorage.init 0 0) 0
      { title := "Test", content := "c" }).1).recognizedText = none ∧
    ((MemStorage.createNote (MemStorage.init 0 0) 0
      { title := "Test", content := "c" }).1).isFavorite = none ∧
    ((MemStorage.createNote (MemStorage.init 0 0) 0
      { title := "Test", content := "c" }).1).preview ≠ some none ∧
    ((MemStorage.createNote (MemStorage.init 0 0) 0
      { title := "Test", content := "c" }).1).isFavorite ≠ some false :=
  ⟨rfl, rfl, rfl, by decide, by decide⟩

/-- C2 (amended): the documented defaults are applied by
`DatabaseStorage.createNote` (via its `noteToInsert` record) and by the
second in-memory variant `MemStorage2.createNote`; the first `MemStorage`
variant and the part_000 store pass the fields through, leaving omitted
optional fields absent. -/
theorem claim2_amended_defaults (ins : InsertNote) (s s2 : MemState)
    (ls : ListState) (t t2 u1 u2 : Nat)
    (hp : ins.preview = none) (hr : ins.recognizedText = none)
    (hf : ins.isFavorite = none) :
    (DatabaseStorage.noteToInsert ins).preview = some none ∧
    (DatabaseStorage.noteToInsert ins).recognizedText = some none ∧
    (DatabaseStorage.noteToInsert ins).isFavorite = some false ∧
    ((MemStorage2.createNote s2 t2 ins).1).preview = some none ∧
    ((MemStorage2.createNote s2 t2 ins).1).recognizedText = some none ∧
    ((MemStorage2.createNote s2 t2 ins).1).isFavorite = some false ∧
    ((MemStorage.createNote s t ins).1).preview = none ∧
    ((MemStorage.createNote s t ins).1).isFavorite = none ∧
    ((MemList.createNote ls u1 u2 ins).1).preview = none ∧
    ((MemList.createNote ls u1 u2 ins).1).isFavorite = none := by
  simp [DatabaseStorage.noteToInsert, MemStorage2.createNote,
    MemStorage.createNote, MemList.createNote, jsOrNullStr, jsOrFalse,
    hp, hr, hf]

/-- Witness for the amended C2 at a concrete insert with all optional
fields omitted. -/
theorem claim2_amended_defaults_witness :
    (DatabaseStorage.noteToInsert { title := "Test", content := "c" }).preview = some none ∧
    (DatabaseStorage.noteToInsert { title := "Test", content := "c" }).recognizedText = some none ∧
    (DatabaseStorage.noteToInsert { title := "Test", content := "c" }).isFavorite = some false ∧
    ((MemStorage2.createNote (MemStorage.init 0 0) 1 { title := "Test", content := "c" }).1).preview = some none ∧
    ((MemStorage2.createNote (MemStorage.init 0 0) 1 { title := "Test", content := "c" }).1).recognizedText = some none ∧
    ((MemStorage2.createNote (MemStorage.init 0 0) 1 { title := "Test", content := "c" }).1).isFavorite = some false ∧
    ((MemStorage.createNote (MemStorage.init 0 0) 1 { title := "Test", content := "c" }).1).preview = none ∧
    ((MemStorage.createNote (MemStorage.init 0 0) 1 { title := "Test", content := "c" }).1).isFavorite = none ∧
    ((MemList.createNote MemList.fresh 0 0 { title := "Test", content := "c" }).1).preview = none ∧
    ((MemList.createNote MemList.fresh 0 0 { title := "Test", content := "c" }).1).isFavorite = none :=
  claim2_amended_defaults { title := "Test", content := "c" }
    (MemStorage.init 0 0) (MemStorage.init 0 0) MemList.fresh 1 1 0 0
    rfl rfl rfl

/-- C3: the claim says both timestamps come from one single clock reading.
That is true of `MemStorage.createNote`, but the part_000 store evaluates
`new Date()` twice, so under a clock that advances between the two reads
(reading 0 then 1 here) the created note has `createdAt = 0` and
`updatedAt = 1`, refuting `createdAt == updatedAt`. -/
theorem claim3_counterexample :
    ((MemList.createNote MemList.fresh 0 1
      { title := "Test", content := "c" }).1).createdAt = 0 ∧
    ((MemList.createNote MemList.fresh 0 1
      { title := "Test", content := "c" }).1).updatedAt = 1 ∧
    ((MemList.createNote MemList.fresh 0 1
      { title := "Test", content := "c" }).1).createdAt ≠
      ((MemList.createNote MemList.fresh 0 1
        { title := "Test", content := "c" }).1).updatedAt :=
  ⟨rfl, rfl, by decide⟩

/-- C3 (amended): both `Map`-backed creates stamp `createdAt` and
`updatedAt` from the one reading they take, so the two are equal there;
the part_000 create takes two readings `t1` then `t2`, so under a
non-decreasing clock only `createdAt ≤ updatedAt` is guaranteed. -/
theorem claim3_amended_timestamps (s : MemState) (t : Nat) (ins : InsertNote)
    (ls : ListState) (t1 t2 : Nat) (ins2 : InsertNote) (h : t1 ≤ t2) :
    ((MemStorage.createNote s t ins).1).createdAt =
      ((MemStorage.createNote s t ins).1).updatedAt ∧
    ((MemStorage2.createNote s t ins).1).createdAt =
      ((MemStorage2.createNote s t ins).1).updatedAt ∧
    ((MemList.createNote ls t1 t2 ins2).1).createdAt ≤
      ((MemList.createNote ls t1 t2 ins2).1).updatedAt :=
  ⟨rfl, rfl, h⟩

/-- Witness for the amended C3 at concrete states and readings 3 ≤ 4. -/
theorem claim3_amended_timestamps_witness :
    ((MemStorage.createNote (MemStorage.init 0 0) 5
      { title := "a", content := "b" }).1).createdAt =
      ((MemStorage.createNote (MemStorage.init 0 0) 5
        { title := "a", content := "b" }).1).updatedAt ∧
    ((MemStorage2.createNote (MemStorage.init 0 0) 5
      { title := "a", content := "b" }).1).createdAt =
      ((MemStorage2.createNote (MemStorage.init 0 0) 5
        { title := "a", content := "b" }).1).updatedAt ∧
    ((MemList.createNote MemList.fresh 3 4
      { title := "a", content := "b" }).1).createdAt ≤
      ((MemList.createNote MemList.fresh 3 4
        { title := "a", content := "b" }).1).updatedAt :=
  claim3_amended_timestamps (MemStorage.init 0 0) 5 { title := "a", content := "b" }
    MemList.fresh 3 4 { title := "a", content := "b" } (by decide)

/-- C4: for an existing id, `MemStorage.updateNote` returns and stores the
merge of the supplied fields onto the existing record: `id` and
`createdAt` are unchanged, every unsupplied field keeps its old value,
every supplied field takes the supplied value, `updatedAt` is always set
to the current reading (also for an empty partial), and no other entry of
the store changes. -/
theorem claim4_update_merges (s : MemState) (t id : Nat) (p : PartialNote)
    (e : Note) (h : mapGet s.notes id = some e) :
    (MemStorage.updateNote s t id p).1 = some (mergeNote e p t) ∧
    mapGet (MemStorage.updateNote s t id p).2.notes id = some (mergeNote e p t) ∧
    (mergeNote e p t).id = e.id ∧
    (mergeNote e p t).createdAt = e.createdAt ∧
    (mergeNote e p t).updatedAt = t ∧
    (p.title = none → (mergeNote e p t).title = e.title) ∧
    (p.content = none → (mergeNote e p t).content = e.content) ∧
    (p.preview = none → (mergeNote e p t).preview = e.preview) ∧
    (p.recognizedText = none → (mergeNote e p t).recognizedText = e.recognizedText) ∧
    (p.isFavorite = none → (mergeNote e p t).isFavorite = e.isFavorite) ∧
    (∀ x, p.title = some x → (mergeNote e p t).title = x) ∧
    (∀ x, p.content = some x → (mergeNote e p t).content = x) ∧
    (∀ x, p.preview = some x → (mergeNote e p t).preview = some x) ∧
    (∀ x, p.recognizedText = some x → (mergeNote e p t).recognizedText = some x) ∧
    (∀ x, p.isFavorite = some x → (mergeNote e p t).isFavorite = some x) ∧
    (∀ j, j ≠ id → mapGet (MemStorage.updateNote s t id p).2.notes j = mapGet s.notes j) := by
  have hu : MemStorage.updateNote s t id p =
      (some (mergeNote e p t),
        { s with notes := mapSet s.notes id (mergeNote e p t) }) := by
    simp [MemStorage.updateNote, h]
  refine ⟨by rw [hu], ?_, rfl, rfl, rfl, ?_, ?_, ?_, ?_, ?_, ?_, ?_, ?_, ?_, ?_, ?_⟩
  · rw [hu]
    show mapGet (mapSet s.notes id (mergeNote e p t)) id = some (mergeNote e p t)
    rw [mapGet_mapSet]
    simp
  · intro hx
    simp [mergeNote, hx]
  · intro hx
    simp [mergeNote, hx]
  · intro hx
    simp [mergeNote, hx, Option.or]
  · intro hx
    simp [mergeNote, hx, Option.or]
  · intro hx
    simp [mergeNote, hx, Option.or]
  · intro x hx
    simp [mergeNote, hx]
  · intro x hx
    simp [mergeNote, hx]
  · intro x hx
    simp [mergeNote, hx, Option.or]
  · intro x hx
    simp [mergeNote, hx, Option.or]
  · intro x hx
    simp [mergeNote, hx, Option.or]
  · intro j hj
    rw [hu]
    show mapGet (mapSet s.notes id (mergeNote e p t)) j = mapGet s.notes j
    rw [mapGet_mapSet, if_neg hj]

/-- Witness for C4: toggling `isFavorite` on the second seeded note of a
fresh `MemStorage` at reading 7. -/
theorem claim4_update_merges_witness :
    (MemStorage.updateNote (MemStorage.init 0 0) 7 2
      { isFavorite := some true }).1 =
      some (mergeNote (seedNote2 0) { isFavorite := some true } 7) ∧
    (mergeNote (seedNote2 0) { isFavorite := some true } 7).createdAt = 0 ∧
    (mergeNote (seedNote2 0) { isFavorite := some true } 7).title = "How to Use" ∧
    (mergeNote (seedNote2 0) { isFavorite := some true } 7).isFavorite = some true ∧
    (mergeNote (seedNote2 0) { isFavorite := some true } 7).updatedAt = 7 := by
  have h := claim4_update_merges (MemStorage.init 0 0) 7 2
    { isFavorite := some true } (seedNote2 0) rfl
  refine ⟨h.1, h.2.2.2.1, ?_, ?_, h.2.2.2.2.1⟩
  · exact h.2.2.2.2.2.1 rfl
  · exact h.2.2.2.2.2.2.2.2.2.2.2.2.2.2.1 true rfl

/-- C5: for an id absent from the store, `getNote` signals absence,
`updateNote` returns absence and leaves the state untouched (no implicit
creation), and `deleteNote` returns `false` with the state untouched; all
three are total functions, so none raises. -/
theorem claim5_missing_id_noop (s : MemState) (t id : Nat) (p : PartialNote)
    (h : mapGet s.notes id = none) :
    MemStorage.getNote s id = none ∧
    MemStorage.updateNote s t id p = (none, s) ∧
    MemStorage.deleteNote s id = (false, s) := by
  refine ⟨h, ?_, ?_⟩
  · simp [MemStorage.updateNote, h]
  · simp [MemStorage.deleteNote, mapHas, h]

/-- Witness for C5 at id 99 on a fresh seeded store. -/
theorem claim5_missing_id_noop_witness :
    MemStorage.getNote (MemStorage.init 0 0) 99 = none ∧
    MemStorage.updateNote (MemStorage.init 0 0) 4 99 {} =
      (none, MemStorage.init 0 0) ∧
    MemStorage.deleteNote (MemStorage.init 0 0) 99 =
      (false, MemStorage.init 0 0) :=
  claim5_missing_id_noop (MemStorage.init 0 0) 4 99 {} rfl

/-- C6: starting from the constructed store, along any trace of create,
update and delete operations whose clock readings never decrease, every
stored note satisfies `createdAt ≤ updatedAt`; moreover one further
operation never changes the `createdAt` of a note that remains present:
`createdAt` is fixed at creation. -/
theorem claim6_timestamp_invariants (t1 t2 : Nat) (h12 : t1 ≤ t2)
    (ops : List MOp) (hm : TimesLB t2 ops) (op : MOp) (id : Nat)
    (n n' : Note)
    (hpre : mapGet (applyOps (MemStorage.init t1 t2) ops).notes id = some n)
    (hpost : mapGet (applyOp (applyOps (MemStorage.init t1 t2) ops) op).notes id
      = some n') :
    (∀ q ∈ (applyOps (MemStorage.init t1 t2) ops).notes,
        q.2.createdAt ≤ q.2.updatedAt) ∧
    n'.createdAt = n.createdAt := by
  constructor
  · intro q hq
    exact (bounded_applyOps (bounded_init h12) hm q hq).1
  · exact createdAt_stable (stateWF_applyOps (stateWF_init t1 t2) ops) op
      hpre hpost

/-- Witness for C6: the empty trace on a fresh store, followed by an
update of note 2 at reading 3, preserves `createdAt`. -/
theorem claim6_timestamp_invariants_witness :
    (∀ q ∈ (applyOps (MemStorage.init 0 0) []).notes,
        q.2.createdAt ≤ q.2.updatedAt) ∧
    (mergeNote (seedNote2 0) {} 3).createdAt = (seedNote2 0).createdAt :=
  claim6_timestamp_invariants 0 0 (Nat.le_refl 0) [] True.intro
    (.mupdate 3 2 {}) 2 (seedNote2 0) (mergeNote (seedNote2 0) {} 3) rfl rfl

/-- C7: along any operation sequence on one store instance, the ids handed
out by the create operations are strictly increasing in creation order
(hence pairwise distinct), and since deletes never lower the counter an id
is never handed out twice, even after the note holding it is deleted. -/
theorem claim7_created_ids_strictly_increasing (s : MemState)
    (ops : List MOp) :
    List.Pairwise (· < ·) (createdIds s ops) ∧ (createdIds s ops).Nodup := by
  have hp : List.Pairwise (· < ·) (createdIds s ops) := by
    induction ops generalizing s with
    | nil => simp [createdIds]
    | cons op rest ih =>
        cases op with
        | mcreate t ins =>
            simp only [createdIds]
            refine List.Pairwise.cons ?_ (ih _)
            intro b hb
            have h1 := createdIds_lb (applyOp s (.mcreate t ins)) rest b hb
            have h2 : (applyOp s (.mcreate t ins)).noteCurrentId =
              s.noteCurrentId + 1 := rfl
            omega
        | mupdate t id p =>
            simpa [createdIds] using ih (applyOp s (.mupdate t id p))
        | mdelete id =>
            simpa [createdIds] using ih (applyOp s (.mdelete id))
  exact ⟨hp, hp.imp (fun hab => Nat.ne_of_lt hab)⟩

/-- C8: the claim says the repository substitutes a non-empty placeholder
for an empty title.  It does not: creating with an empty title stores the
empty title verbatim, both in the returned note and in the map. -/
theorem claim8_counterexample :
    ((MemStorage.createNote (MemStorage.init 0 0) 1
      { title := "", content := "c" }).1).title = "" ∧
    (mapGet ((MemStorage.createNote (MemStorage.init 0 0) 1
      { title := "", content := "c" }).2).notes 3).map (fun n => n.title) =
      some "" :=
  ⟨rfl, rfl⟩

/-- C8 (amended): the repository stores the title verbatim, empty or not;
the placeholder lives in the UI, where `NoteCard` renders
`title || 'Untitled Note'`, substituting exactly for the empty title. -/
theorem claim8_amended_placeholder_in_ui (s : MemState) (t : Nat)
    (ins : InsertNote) :
    ((MemStorage.createNote s t ins).1).title = ins.title ∧
    NoteCard.displayTitle "" = "Untitled Note" ∧
    (∀ x : String, x ≠ "" → NoteCard.displayTitle x = x) := by
  refine ⟨rfl, rfl, ?_⟩
  intro x hx
  simp [NoteCard.displayTitle, hx]

/-- Witness for the amended C8 at a concrete create and concrete titles. -/
theorem claim8_amended_placeholder_in_ui_witness :
    ((MemStorage.createNote (MemStorage.init 0 0) 1
      { title := "Test", content := "c" }).1).title = "Test" ∧
    NoteCard.displayTitle "" = "Untitled Note" ∧
    NoteCard.displayTitle "Test" = "Test" := by
  have h := claim8_amended_placeholder_in_ui (MemStorage.init 0 0) 1
    { title := "Test", content := "c" }
  exact ⟨h.1, h.2.1, h.2.2 "Test" (by decide)⟩

/-- C9: when the id path parameter fails to parse as an integer
(JavaScript `parseInt` yields `NaN`, modelled as `none`), the GET handler
responds 404 with the not-found message, because `NaN` matches no stored
id; it never responds 400. -/
theorem claim9_non_numeric_id_404 (s : MemState) (idParam : String)
    (h : jsParseInt idParam = none) :
    handleGetNote s idParam =
      { status := 404, bodyMessage := some "Note not found" } := by
  have hfind : s.notes.find? (fun q => idMatches (jsParseInt idParam) q.1)
      = none := by
    rw [List.find?_eq_none]
    intro q hq
    rw [h]
    simp [idMatches]
  simp [handleGetNote, getNoteJs, hfind]

/-- Witness for C9 on the non-numeric parameter string. -/
theorem claim9_non_numeric_id_404_witness :
    handleGetNote (MemStorage.init 0 0) "abc" =
      { status := 404, bodyMessage := some "Note not found" } :=
  claim9_non_numeric_id_404 (MemStorage.init 0 0) "abc" rfl

/-- C10: when the note exists and the request body's `isFavorite` is
absent or non-truthy, the PATCH favorite handler coerces it with
`Boolean(...)` instead of rejecting: it responds 200, the response note
carries `isFavorite: false`, and the stored note does too. -/
theorem claim10_patch_favorite_nontruthy (s : MemState) (t : Nat)
    (idParam : String) (v : Option JVal) (entry : Nat × Note)
    (hfind : s.notes.find? (fun q => idMatches (jsParseInt idParam) q.1)
      = some entry)
    (hv : jsBoolean v = false) :
    (handlePatchFavorite s t idParam v).1.status = 200 ∧
    ((handlePatchFavorite s t idParam v).1.bodyNote.map
      (fun n => n.isFavorite)) = some (some false) ∧
    ((mapGet (handlePatchFavorite s t idParam v).2.notes entry.1).map
      (fun n => n.isFavorite)) = some (some false) := by
  have hget : mapGet s.notes entry.1 = some entry.2 :=
    find?_idMatches_mapGet hfind
  simp only [handlePatchFavorite, hfind]
  simp only [MemStorage.updateNote, hget]
  refine ⟨by simp, ?_, ?_⟩
  · simp [mergeNote, hv, Option.or]
  · rw [mapGet_mapSet]
    simp [mergeNote, hv, Option.or]

/-- Witness for C10: PATCH on note 2 of a fresh store with an absent
`isFavorite` body field. -/
theorem claim10_patch_favorite_nontruthy_witness :
    (handlePatchFavorite (MemStorage.init 0 0) 5 "2" none).1.status = 200 ∧
    ((handlePatchFavorite (MemStorage.init 0 0) 5 "2" none).1.bodyNote.map
      (fun n => n.isFavorite)) = some (some false) ∧
    ((mapGet (handlePatchFavorite (MemStorage.init 0 0) 5 "2" none).2.notes 2).map
      (fun n => n.isFavorite)) = some (some false) :=
  claim10_patch_favorite_nontruthy (MemStorage.init 0 0) 5 "2" none
    (2, seedNote2 0) rfl rfl
